import Mathlib

/-!
# Verification of the Event-Ticket-Booking scheduling core

Shallow embedding of the scheduling core of the repository
(`manager.py`: `Scheduler`, `EventManager`; `database.py`: the `events` and
`schedule` tables; `models.py`: `Event`), together with proofs of the
specification claims about it.

Modelling conventions:

* Points in time are `Rat`.  The source stores timestamps as numeric
  epoch-seconds (`REAL` columns, `datetime.timestamp()`) and in-memory as
  `datetime` values; the conversion between the two is an exact monotone
  bijection, so both are modelled by the same rational number, and
  `datetime.fromtimestamp` / `.timestamp()` / `.isoformat()` / `parse_date`
  are the identity.  `timedelta(hours=d)` adds `3600 * d` seconds.
* The two SQLite tables the core touches are modelled as association lists:
  `events` as `List EventRow` and `schedule` as `List ScheduleRow`, with the
  `INSERT OR IGNORE` / `DELETE` / `SELECT` semantics of `database.py`.
* The third-party `IntervalTree` is external library code; it is modelled by
  its observable contract: a collection of half-open intervals supporting
  `overlaps`, slice queries, `add` (which raises `ValueError` on a null
  interval, i.e. `begin >= end`) and removal.  The tree shape is a search
  optimisation only, so the collection is a `List Iv`; the slice query
  `tree[s:e]` yields an unordered set and `next(iter(...))` picks an
  arbitrary member, modelled as the first stored overlapping interval.
* `heapq` is external library code; its observable contract is that
  `heap[0]` is the minimum entry under lexicographic tuple order and
  `heappop` removes that minimum.  The queue is therefore modelled as a
  list kept sorted by that order (`List.orderedInsert` for `heappush`);
  `heapq.heapify` of a list that is already in queue order is the identity.
* Exceptions become an explicit error component of the result, paired with
  the state the Python object holds when the exception propagates
  (mutations made before the raise are kept, as in the source).
* `datetime.now()` inside `get_next_event` is an environment input and
  becomes the explicit parameter `now`.
* A possible failure of the SQLite write in `db.add_schedule` is an
  environment outcome and becomes the explicit parameter `persistOk` of
  `schedule_event`; the source has no handler around the write, so on a
  failed write the exception propagates after the in-memory mutations.
-/

/-- `models.Event` (dataclass): the in-memory event entity. -/
structure Event where
  id : String
  title : String
  date : Rat
  capacity : Int
  duration_hours : Rat
  type : String
  instructor : Option String
  created_by : Option String
deriving DecidableEq

/-- One row of the `events` table (`database.py`); the `date` TEXT column is
identified with the point in time it encodes. -/
structure EventRow where
  id : String
  title : String
  date : Rat
  capacity : Int
  duration_hours : Rat
  type : String
  instructor : Option String
  created_by : Option String
deriving DecidableEq

/-- One row of the `schedule` table: `(event_id, start_ts, end_ts)`. -/
abbrev ScheduleRow := String × Rat × Rat

/-- One stored interval of the `IntervalTree`: `Interval(begin, end, data)`
(`end` is spelled `end_` because `end` is reserved in Lean). -/
structure Iv where
  begin : Rat
  end_ : Rat
  data : String
deriving DecidableEq

/-- One lookahead-queue entry: the `(event.date, event.id)` tuple pushed by
`heapq.heappush`. -/
abbrev QEntry := Rat × String

/-- The errors `schedule_event` can propagate:
* `conflict title date` — the explicit
  `ValueError(f"Conflict with event {title} at {date}")`;
* `nullInterval` — the `ValueError` the `IntervalTree` raises when a null
  interval (`begin >= end`) is inserted;
* `noneSubscript` — the `TypeError` from subscripting `None` when
  `db.get_event` returns no record for the conflicting id;
* `persistFailure` — a propagated failure of the `db.add_schedule` write. -/
inductive SchedErr where
  | conflict (title : String) (date : Rat)
  | nullInterval
  | noneSubscript
  | persistFailure
deriving DecidableEq

/-- The combined state: the two relevant database tables plus the
`Scheduler`'s in-memory `intervals` and `event_queue`. -/
structure SysState where
  events : List EventRow
  schedule : List ScheduleRow
  intervals : List Iv
  event_queue : List QEntry
deriving DecidableEq

/-! ## Database collaborator (`database.py`) -/

/-- `Database.get_event`: first row of the `events` table with this id. -/
def db_get_event (events : List EventRow) (event_id : String) : Option EventRow :=
  events.find? (fun r => r.id == event_id)

/-- `Database.add_schedule`: `INSERT OR IGNORE` keyed on the `event_id`
primary key. -/
def db_add_schedule (rows : List ScheduleRow) (event_id : String) (start_ts end_ts : Rat) :
    List ScheduleRow :=
  if rows.any (fun r => r.1 == event_id) then rows else rows ++ [(event_id, start_ts, end_ts)]

/-- `Database.remove_schedule`: `DELETE FROM schedule WHERE event_id = ?`. -/
def db_remove_schedule (rows : List ScheduleRow) (event_id : String) : List ScheduleRow :=
  rows.filter (fun r => !(r.1 == event_id))

/-! ## IntervalTree collaborator (library contract) -/

/-- `Interval.overlaps(begin, end)` of the library:
`begin < self.end and end > self.begin`. -/
def iv_overlapsB (iv : Iv) (s e : Rat) : Bool :=
  decide (iv.begin < e ∧ s < iv.end_)

/-- `IntervalTree.overlaps(begin, end)`: `False` for an empty or null query
range, otherwise true iff some stored interval overlaps `[s, e)`. -/
def ivt_overlaps (t : List Iv) (s e : Rat) : Bool :=
  if e ≤ s then false else t.any (fun iv => iv_overlapsB iv s e)

/-- `tree[s:e] = d` (`IntervalTree.addi`): raises `ValueError` (here `none`)
for a null interval `s >= e`, otherwise stores the interval. -/
def ivt_add (t : List Iv) (s e : Rat) (d : String) : Option (List Iv) :=
  if e ≤ s then none else some (t ++ [⟨s, e, d⟩])

/-! ## Lookahead queue (`heapq` contract) -/

/-- Lexicographic order on the `(datetime, event_id)` tuples, as compared by
`heapq`; Python compares the id strings by code points, i.e. by the
lexicographic order on their character lists. -/
def entryLe (a b : QEntry) : Prop :=
  a.1 < b.1 ∨ (a.1 = b.1 ∧ a.2.data ≤ b.2.data)

instance entryLe.decRel : DecidableRel entryLe := fun a b =>
  inferInstanceAs (Decidable (_ ∨ _))

instance entryLe.total : IsTotal QEntry entryLe where
  total a b := by
    rcases lt_trichotomy a.1 b.1 with h | h | h
    · exact Or.inl (Or.inl h)
    · rcases le_total a.2.data b.2.data with h2 | h2
      · exact Or.inl (Or.inr ⟨h, h2⟩)
      · exact Or.inr (Or.inr ⟨h.symm, h2⟩)
    · exact Or.inr (Or.inl h)

instance entryLe.trans : IsTrans QEntry entryLe where
  trans a b c hab hbc := by
    rcases hab with h1 | ⟨h1, h1'⟩ <;> rcases hbc with h2 | ⟨h2, h2'⟩
    · exact Or.inl (h1.trans h2)
    · exact Or.inl (h2 ▸ h1)
    · exact Or.inl (h1 ▸ h2)
    · exact Or.inr ⟨h1.trans h2, h1'.trans h2'⟩

instance entryLe.antisymm : IsAntisymm QEntry entryLe where
  antisymm a b hab hba := by
    rcases hab with h1 | ⟨h1, h1'⟩ <;> rcases hba with h2 | ⟨h2, h2'⟩
    · exact absurd (h1.trans h2) (lt_irrefl _)
    · exact absurd h1 (h2 ▸ lt_irrefl _)
    · exact absurd h2 (h1 ▸ lt_irrefl _)
    · exact Prod.ext h1 (String.ext (le_antisymm h1' h2'))

/-- `heapq.heappush` on the queue: the heap contract is "`heap[0]` is the
lexicographic minimum", realised here by keeping the list sorted. -/
def heappush (q : List QEntry) (x : QEntry) : List QEntry :=
  List.orderedInsert entryLe x q

/-- The pruning loop of `get_next_event`:
`while queue and queue[0][0] < now: heappop(queue)`. -/
def drop_past (now : Rat) : List QEntry → List QEntry
  | [] => []
  | x :: xs => if x.1 < now then drop_past now xs else x :: xs

/-! ## Scheduler (`manager.py`) -/

/-- `start_ts = event.date.timestamp()` in `schedule_event`. -/
def start_ts (event : Event) : Rat :=
  event.date

/-- `end_ts = (event.date + timedelta(hours=event.duration_hours)).timestamp()`
in `schedule_event`. -/
def end_ts (event : Event) : Rat :=
  event.date + 3600 * event.duration_hours

/-- `Scheduler.schedule_event`.  `persistOk` is the outcome of the
`db.add_schedule` write; the returned state is the one the Python object
holds when the call returns or the exception propagates. -/
def schedule_event (persistOk : Bool) (st : SysState) (event : Event) :
    SysState × Option SchedErr :=
  if ivt_overlaps st.intervals (start_ts event) (end_ts event) then
    match st.intervals.find? (fun iv => iv_overlapsB iv (start_ts event) (end_ts event)) with
    | some iv =>
      match db_get_event st.events iv.data with
      | some row => (st, some (.conflict row.title row.date))
      | none => (st, some .noneSubscript)
    | none => (st, some .noneSubscript)
  else
    match ivt_add st.intervals (start_ts event) (end_ts event) event.id with
    | none => (st, some .nullInterval)
    | some ivs' =>
      if persistOk then
        ({ st with intervals := ivs',
                   event_queue := heappush st.event_queue (event.date, event.id),
                   schedule := db_add_schedule st.schedule event.id (start_ts event)
                     (end_ts event) }, none)
      else
        ({ st with intervals := ivs',
                   event_queue := heappush st.event_queue (event.date, event.id) },
         some .persistFailure)

/-- `Scheduler.remove_event`: filter the intervals, filter and re-heapify the
queue (filtering a sorted list keeps it sorted), delete the persisted row. -/
def remove_event (st : SysState) (event_id : String) : SysState :=
  { st with
    intervals := st.intervals.filter (fun iv => !(iv.data == event_id)),
    event_queue := st.event_queue.filter (fun p => !(p.2 == event_id)),
    schedule := db_remove_schedule st.schedule event_id }

/-- `Scheduler.get_next_event`: prune strictly-past entries, then peek the
queue head without removing it.  `now` is the value of `datetime.now()`. -/
def get_next_event (now : Rat) (st : SysState) : Option QEntry × SysState :=
  ((drop_past now st.event_queue).head?,
   { st with event_queue := drop_past now st.event_queue })

/-- A sequence of `get_next_event` calls, collecting the returned entries. -/
def run_queries (st : SysState) : List Rat → List (Option QEntry)
  | [] => []
  | n :: ns =>
    let r := get_next_event n st
    r.1 :: run_queries r.2 ns

/-- The loop body of `Scheduler.load_schedule`, threading the interval index
and queue over the persisted rows (`tree[start:end] = id` may raise on a
corrupt null row, hence `Option`). -/
def load_schedule_from (ivs : List Iv) (q : List QEntry) :
    List ScheduleRow → Option (List Iv × List QEntry)
  | [] => some (ivs, q)
  | (eid, s, e) :: rest =>
    match ivt_add ivs s e eid with
    | none => none
    | some ivs' => load_schedule_from ivs' (heappush q (s, eid)) rest

/-- `Scheduler.__init__`: start from empty structures and run
`load_schedule` against the persisted rows. -/
def scheduler_new (events : List EventRow) (rows : List ScheduleRow) : Option SysState :=
  (load_schedule_from [] [] rows).map fun p => ⟨events, rows, p.1, p.2⟩

/-! ## EventManager (`manager.py`) -/

/-- Truthiness of an optional string argument (`if title:` in Python). -/
def truthyS : Option String → Bool
  | none => false
  | some s => !(s == "")

/-- Truthiness of an optional numeric argument (`if duration_hours:`). -/
def truthyR : Option Rat → Bool
  | none => false
  | some r => !(r == 0)

/-- Truthiness of an optional integer argument (`if capacity:`). -/
def truthyI : Option Int → Bool
  | none => false
  | some i => !(i == 0)

/-- Field replacement performed by `db.update_event` for a `TEXT` column. -/
def pickS (cur : String) : Option String → String
  | none => cur
  | some s => if s == "" then cur else s

/-- Field replacement for the optional `instructor` column. -/
def pickOS (cur : Option String) : Option String → Option String
  | none => cur
  | some s => if s == "" then cur else some s

/-- Field replacement for the `date` column (a parsed ISO string is never
falsy, so presence alone decides). -/
def pickD (cur : Rat) : Option Rat → Rat
  | none => cur
  | some d => d

/-- Field replacement for a numeric column (`0` is falsy). -/
def pickR (cur : Rat) : Option Rat → Rat
  | none => cur
  | some r => if r == 0 then cur else r

/-- Field replacement for an integer column (`0` is falsy). -/
def pickI (cur : Int) : Option Int → Int
  | none => cur
  | some i => if i == 0 then cur else i

/-- `Database.update_event`: build the truthy-field update dict; if it is
non-empty, `UPDATE ... WHERE id = ?` and report whether a row matched. -/
def db_update_event (events : List EventRow) (event_id : String)
    (title : Option String) (date : Option Rat) (capacity : Option Int)
    (duration_hours : Option Rat) (ty : Option String) (instructor : Option String) :
    List EventRow × Bool :=
  let hasUpdates := truthyS title || date.isSome || truthyI capacity ||
    truthyR duration_hours || truthyS ty || truthyS instructor
  if hasUpdates then
    if events.any (fun r => r.id == event_id) then
      (events.map (fun r =>
        if r.id == event_id then
          { r with
            title := pickS r.title title,
            date := pickD r.date date,
            capacity := pickI r.capacity capacity,
            duration_hours := pickR r.duration_hours duration_hours,
            type := pickS r.type ty,
            instructor := pickOS r.instructor instructor }
        else r), true)
    else (events, false)
  else (events, false)

/-- Rebuilding a `models.Event` from a database row
(`EventManager.get_event`, with `parse_date` the identity). -/
def row_to_event (r : EventRow) : Event :=
  ⟨r.id, r.title, r.date, r.capacity, r.duration_hours, r.type, r.instructor, r.created_by⟩

/-- `EventManager.get_event`. -/
def mgr_get_event (st : SysState) (event_id : String) : Option Event :=
  (db_get_event st.events event_id).map row_to_event

/-- `EventManager.update_event`: update the row; if the date or duration
argument was truthy, remove the old schedule entry and attempt a fresh
`schedule_event` with the re-read event, propagating its error. -/
def update_event (st : SysState) (event_id : String)
    (title : Option String) (date : Option Rat) (capacity : Option Int)
    (duration_hours : Option Rat) (ty : Option String) (instructor : Option String) :
    SysState × Except SchedErr Bool :=
  match mgr_get_event st event_id with
  | none => (st, .ok false)
  | some _ =>
    let r := db_update_event st.events event_id title date capacity duration_hours ty instructor
    if r.2 then
      if date.isSome || truthyR duration_hours then
        let st₂ := remove_event { st with events := r.1 } event_id
        match mgr_get_event st₂ event_id with
        | some updated =>
          match schedule_event true st₂ updated with
          | (st₃, none) => (st₃, .ok true)
          | (st₃, some er) => (st₃, .error er)
        | none => (st₂, .error .noneSubscript)
      else ({ st with events := r.1 }, .ok true)
    else ({ st with events := r.1 }, .ok false)

/-! ## Reachability by scheduler operations -/

/-- Half-open disjointness of two stored intervals:
`[a.begin, a.end_) ∩ [b.begin, b.end_) = ∅` for non-null intervals. -/
def ivDisjoint (a b : Iv) : Prop :=
  ¬ (a.begin < b.end_ ∧ b.begin < a.end_)

/-- States reachable from an empty schedule by any sequence of
`schedule_event` (with either persistence outcome), `remove_event`, and
reschedules (their composition), with the events table varying freely. -/
inductive Reachable : SysState → Prop
  | init (events : List EventRow) : Reachable ⟨events, [], [], []⟩
  | sched (persistOk : Bool) (ev : Event) {st : SysState} :
      Reachable st → Reachable (schedule_event persistOk st ev).1
  | rem (event_id : String) {st : SysState} :
      Reachable st → Reachable (remove_event st event_id)
  | setEvents (events : List EventRow) {st : SysState} :
      Reachable st → Reachable { st with events := events }

/-! ## Basic facts about the embedded operations -/

/-- The pruning loop only ever drops entries from the front: its result is a
sublist (in fact a suffix) of the queue. -/
theorem drop_past_sublist (now : Rat) (q : List QEntry) :
    (drop_past now q).Sublist q := by
  induction q with
  | nil => exact List.Sublist.refl _
  | cons x xs ih =>
    rw [drop_past]
    split
    · exact ih.trans (List.sublist_cons_self x xs)
    · exact List.Sublist.refl _

/-- The entry left at the head of the pruned queue is not strictly past. -/
theorem drop_past_head_not_past {now : Rat} {q : List QEntry} {x : QEntry}
    (h : (drop_past now q).head? = some x) : ¬ x.1 < now := by
  induction q with
  | nil => simp [drop_past] at h
  | cons y ys ih =>
    rw [drop_past] at h
    split at h
    · exact ih h
    · next hy => simp only [List.head?_cons, Option.some.injEq] at h; exact h ▸ hy

/-- Pruning a sorted queue keeps it sorted. -/
theorem drop_past_sorted {now : Rat} {q : List QEntry} (h : q.Sorted entryLe) :
    (drop_past now q).Sorted entryLe :=
  h.sublist (drop_past_sublist now q)

theorem entryLe_refl (a : QEntry) : entryLe a a :=
  Or.inr ⟨rfl, le_refl _⟩

/-- The head of a sorted queue is a lower bound for every member. -/
theorem sorted_head_min {q : List QEntry} {x : QEntry}
    (hs : q.Sorted entryLe) (h : q.head? = some x) : ∀ y ∈ q, entryLe x y := by
  cases q with
  | nil => simp at h
  | cons z zs =>
    simp only [List.head?_cons, Option.some.injEq] at h
    subst h
    intro y hy
    rcases List.mem_cons.mp hy with rfl | hy
    · exact entryLe_refl _
    · exact (List.sorted_cons.mp hs).1 y hy

/-- An entry a `get_next_event` call ever returns is a member of the queue the
call started from. -/
theorem get_next_event_mem {now : Rat} {st : SysState} {x : QEntry}
    (h : (get_next_event now st).1 = some x) : x ∈ st.event_queue := by
  unfold get_next_event at h
  simp only at h
  exact (drop_past_sublist now st.event_queue).mem (List.mem_of_mem_head? (by simp [h]))

/-- The queue after a `get_next_event` call is a sublist of the one before. -/
theorem get_next_event_queue_sublist (now : Rat) (st : SysState) :
    ((get_next_event now st).2.event_queue).Sublist st.event_queue :=
  drop_past_sublist now st.event_queue

/-- An entry absent from the queue is never again returned by any sequence of
`get_next_event` calls. -/
theorem run_queries_not_mem {p : QEntry} :
    ∀ (nows : List Rat) (st : SysState), p ∉ st.event_queue →
      some p ∉ run_queries st nows := by
  intro nows
  induction nows with
  | nil => intro st _; simp [run_queries]
  | cons n ns ih =>
    intro st hp
    rw [run_queries]
    simp only [List.mem_cons, not_or]
    refine ⟨fun h => hp (get_next_event_mem h.symm), ?_⟩
    exact ih _ (fun hmem => hp ((get_next_event_queue_sublist n st).mem hmem))

/-! ## Claim C9: zero-duration events can never be scheduled -/

/-- C9.  If `duration_hours` is `0`, the computed interval is the null
interval `[start, start)`: the overlap check is vacuously false, and the
insertion into the interval index raises, before any mutation — so a
zero-duration event can never be scheduled successfully, whatever the state
and whatever the persistence outcome. -/
theorem c9_zero_duration_never_scheduled (persistOk : Bool) (st : SysState) (ev : Event)
    (h : ev.duration_hours = 0) :
    schedule_event persistOk st ev = (st, some SchedErr.nullInterval) := by
  have he : end_ts ev = start_ts ev := by simp [end_ts, start_ts, h]
  simp [schedule_event, ivt_overlaps, ivt_add, he]

/-- Concrete instance of `c9_zero_duration_never_scheduled`. -/
theorem c9_zero_duration_never_scheduled_witness :
    (⟨"z", "Zero", 5, 1, 0, "basic", none, none⟩ : Event).duration_hours = 0 ∧
    schedule_event true ⟨[], [], [], []⟩ ⟨"z", "Zero", 5, 1, 0, "basic", none, none⟩
      = (⟨[], [], [], []⟩, some SchedErr.nullInterval) :=
  ⟨rfl, c9_zero_duration_never_scheduled true ⟨[], [], [], []⟩ _ rfl⟩

/-! ## Claim C7: removing an unscheduled id is a no-op -/

/-- C7.  `remove_event` on an id that has no interval, no queue entry and no
persisted row (a never-scheduled or already-removed id) is a no-op: it is a
total function (raises no error) and changes nothing. -/
theorem c7_remove_event_idempotent (st : SysState) (event_id : String)
    (h1 : ∀ iv ∈ st.intervals, iv.data ≠ event_id)
    (h2 : ∀ p ∈ st.event_queue, p.2 ≠ event_id)
    (h3 : ∀ r ∈ st.schedule, r.1 ≠ event_id) :
    remove_event st event_id = st := by
  have e1 : st.intervals.filter (fun iv => !(iv.data == event_id)) = st.intervals :=
    List.filter_eq_self.mpr fun a ha => by simpa using h1 a ha
  have e2 : st.event_queue.filter (fun p => !(p.2 == event_id)) = st.event_queue :=
    List.filter_eq_self.mpr fun a ha => by simpa using h2 a ha
  have e3 : st.schedule.filter (fun r => !(r.1 == event_id)) = st.schedule :=
    List.filter_eq_self.mpr fun a ha => by simpa using h3 a ha
  simp [remove_event, db_remove_schedule, e1, e2, e3]

/-- Concrete instance of `c7_remove_event_idempotent`: removing the
never-scheduled id `"x"` from a state holding one scheduled event. -/
theorem c7_remove_event_idempotent_witness :
    (∀ iv ∈ (⟨[], [("a", 10, 20)], [⟨10, 20, "a"⟩], [(10, "a")]⟩ : SysState).intervals,
        iv.data ≠ "x") ∧
    (∀ p ∈ (⟨[], [("a", 10, 20)], [⟨10, 20, "a"⟩], [(10, "a")]⟩ : SysState).event_queue,
        p.2 ≠ "x") ∧
    (∀ r ∈ (⟨[], [("a", 10, 20)], [⟨10, 20, "a"⟩], [(10, "a")]⟩ : SysState).schedule,
        r.1 ≠ "x") ∧
    remove_event ⟨[], [("a", 10, 20)], [⟨10, 20, "a"⟩], [(10, "a")]⟩ "x"
      = ⟨[], [("a", 10, 20)], [⟨10, 20, "a"⟩], [(10, "a")]⟩ :=
  ⟨by decide, by decide, by decide,
   c7_remove_event_idempotent _ "x" (by decide) (by decide) (by decide)⟩

/-! ## Claim C2: conflicts are reported and mutate nothing -/

/-- C2.  When the overlap check fires and the persistence lookup of the
conflicting id succeeds, `schedule_event` fails with the conflict error
naming the conflicting event's title and start, and returns the state
entirely unchanged: interval index, lookahead queue and persisted schedule
table are all untouched. -/
theorem c2_conflict_reported_no_mutation (persistOk : Bool) (st : SysState) (ev : Event)
    (iv : Iv) (row : EventRow)
    (hov : ivt_overlaps st.intervals (start_ts ev) (end_ts ev) = true)
    (hfind : st.intervals.find? (fun i => iv_overlapsB i (start_ts ev) (end_ts ev)) = some iv)
    (hrow : db_get_event st.events iv.data = some row) :
    schedule_event persistOk st ev = (st, some (SchedErr.conflict row.title row.date)) := by
  simp [schedule_event, hov, hfind, hrow]

/-- Concrete instance of `c2_conflict_reported_no_mutation`: scheduling
`[3600, 10800)` against a stored `[0, 7200)` owned by `"g"`. -/
theorem c2_conflict_reported_no_mutation_witness :
    ivt_overlaps [⟨0, 7200, "g"⟩]
      (start_ts ⟨"n", "New", 3600, 5, 2, "basic", none, none⟩)
      (end_ts ⟨"n", "New", 3600, 5, 2, "basic", none, none⟩) = true ∧
    ([⟨0, 7200, "g"⟩] : List Iv).find?
      (fun i => iv_overlapsB i
        (start_ts ⟨"n", "New", 3600, 5, 2, "basic", none, none⟩)
        (end_ts ⟨"n", "New", 3600, 5, 2, "basic", none, none⟩)) = some ⟨0, 7200, "g"⟩ ∧
    db_get_event [⟨"g", "Ghost", 0, 5, 2, "basic", none, none⟩] "g"
      = some ⟨"g", "Ghost", 0, 5, 2, "basic", none, none⟩ ∧
    schedule_event true
      ⟨[⟨"g", "Ghost", 0, 5, 2, "basic", none, none⟩], [("g", 0, 7200)],
        [⟨0, 7200, "g"⟩], [(0, "g")]⟩
      ⟨"n", "New", 3600, 5, 2, "basic", none, none⟩
      = (⟨[⟨"g", "Ghost", 0, 5, 2, "basic", none, none⟩], [("g", 0, 7200)],
          [⟨0, 7200, "g"⟩], [(0, "g")]⟩, some (SchedErr.conflict "Ghost" 0)) := by
  refine ⟨?_, ?_, ?_, ?_⟩
  · norm_num [ivt_overlaps, iv_overlapsB, start_ts, end_ts]
  · norm_num [iv_overlapsB, start_ts, end_ts, List.find?]
  · rfl
  · exact c2_conflict_reported_no_mutation true _ _ ⟨0, 7200, "g"⟩
      ⟨"g", "Ghost", 0, 5, 2, "basic", none, none⟩
      (by norm_num [ivt_overlaps, iv_overlapsB, start_ts, end_ts])
      (by norm_num [iv_overlapsB, start_ts, end_ts, List.find?]) rfl

/-! ## Claim C10: conflict with a missing event record crashes -/

/-- C10.  When the overlap check fires but the conflicting id has no record
in the events store, the call fails by subscripting the absent record
(`conflicting_event['title']` on `None`) instead of producing the
scheduling-conflict error. -/
theorem c10_conflict_missing_record_crashes (persistOk : Bool) (st : SysState) (ev : Event)
    (iv : Iv)
    (hov : ivt_overlaps st.intervals (start_ts ev) (end_ts ev) = true)
    (hfind : st.intervals.find? (fun i => iv_overlapsB i (start_ts ev) (end_ts ev)) = some iv)
    (hrow : db_get_event st.events iv.data = none) :
    schedule_event persistOk st ev = (st, some SchedErr.noneSubscript) := by
  simp [schedule_event, hov, hfind, hrow]

/-- Concrete instance of `c10_conflict_missing_record_crashes`: the stored
interval belongs to `"ghost"`, which has no row in the events table. -/
theorem c10_conflict_missing_record_crashes_witness :
    ivt_overlaps [⟨0, 7200, "ghost"⟩]
      (start_ts ⟨"n", "New", 3600, 5, 2, "basic", none, none⟩)
      (end_ts ⟨"n", "New", 3600, 5, 2, "basic", none, none⟩) = true ∧
    ([⟨0, 7200, "ghost"⟩] : List Iv).find?
      (fun i => iv_overlapsB i
        (start_ts ⟨"n", "New", 3600, 5, 2, "basic", none, none⟩)
        (end_ts ⟨"n", "New", 3600, 5, 2, "basic", none, none⟩)) = some ⟨0, 7200, "ghost"⟩ ∧
    db_get_event [] "ghost" = none ∧
    schedule_event false ⟨[], [], [⟨0, 7200, "ghost"⟩], [(0, "ghost")]⟩
      ⟨"n", "New", 3600, 5, 2, "basic", none, none⟩
      = (⟨[], [], [⟨0, 7200, "ghost"⟩], [(0, "ghost")]⟩, some SchedErr.noneSubscript) := by
  refine ⟨?_, ?_, rfl, ?_⟩
  · norm_num [ivt_overlaps, iv_overlapsB, start_ts, end_ts]
  · norm_num [iv_overlapsB, start_ts, end_ts, List.find?]
  · exact c10_conflict_missing_record_crashes false _ _ ⟨0, 7200, "ghost"⟩
      (by norm_num [ivt_overlaps, iv_overlapsB, start_ts, end_ts])
      (by norm_num [iv_overlapsB, start_ts, end_ts, List.find?]) rfl

/-! ## Claim C1: the no-overlap invariant -/

/-- C1.  After any sequence of `schedule_event` (under either persistence
outcome), `remove_event`, and reschedule (their composition) operations
starting from an empty schedule, the stored intervals are pairwise disjoint:
no two distinct scheduled entries overlap. -/
theorem c1_no_overlap_invariant (st : SysState) (h : Reachable st) :
    st.intervals.Pairwise ivDisjoint := by
  induction h with
  | init events => exact List.Pairwise.nil
  | setEvents events _ ih => exact ih
  | rem event_id _ ih => exact ih.filter _
  | sched persistOk ev hr ih =>
    rename_i st
    unfold schedule_event
    split
    · split
      · split
        · exact ih
        · exact ih
      · exact ih
    · next hov =>
      split
      · exact ih
      · next ivs' hadd =>
        unfold ivt_add at hadd
        split at hadd
        · exact absurd hadd (by simp)
        · next hle =>
          obtain rfl : st.intervals ++ [⟨start_ts ev, end_ts ev, ev.id⟩] = ivs' := by
            simpa using hadd
          have hany : st.intervals.any
              (fun iv => iv_overlapsB iv (start_ts ev) (end_ts ev)) = false := by
            unfold ivt_overlaps at hov
            rw [if_neg hle] at hov
            simpa using hov
          have hforall : ∀ a ∈ st.intervals,
              ivDisjoint a ⟨start_ts ev, end_ts ev, ev.id⟩ := by
            intro a ha
            have := (List.any_eq_false.mp hany) a ha
            simpa [iv_overlapsB, ivDisjoint] using this
          have hpw : List.Pairwise ivDisjoint
              (st.intervals ++ [⟨start_ts ev, end_ts ev, ev.id⟩]) := by
            rw [List.pairwise_append]
            refine ⟨ih, List.pairwise_singleton _ _, ?_⟩
            intro a ha b hb
            rw [List.mem_singleton] at hb
            exact hb ▸ hforall a ha
          split
          · exact hpw
          · exact hpw

/-- Concrete instance of `c1_no_overlap_invariant` at a reachable state with
one scheduled event. -/
theorem c1_no_overlap_invariant_witness :
    Reachable (schedule_event true ⟨[], [], [], []⟩
      ⟨"a", "A", 0, 1, 1, "basic", none, none⟩).1 ∧
    ((schedule_event true ⟨[], [], [], []⟩
      ⟨"a", "A", 0, 1, 1, "basic", none, none⟩).1.intervals).Pairwise ivDisjoint := by
  have hr : Reachable (schedule_event true ⟨[], [], [], []⟩
      ⟨"a", "A", 0, 1, 1, "basic", none, none⟩).1 :=
    Reachable.sched true _ (Reachable.init [])
  exact ⟨hr, c1_no_overlap_invariant _ hr⟩

/-! ## Claim C4: `get_next_event` never yields past or pruned entries -/

/-- Queue used by the concrete `get_next_event` scenario: events at 09:00,
10:00 and 11:00 (as seconds of the day). -/
def c4_ex_state : SysState :=
  ⟨[], [], [], [(32400, "a"), (36000, "b"), (39600, "c")]⟩

/-- C4.  On a queue in heap order: the returned entry never starts strictly
before `now`; a returned entry is the least remaining entry and stays in the
queue (peek, not pop); and entries pruned by the call are permanently gone —
no later sequence of calls, whatever their `now` values (even smaller ones),
ever returns them. -/
theorem c4_get_next_event (now : Rat) (st : SysState)
    (hs : st.event_queue.Sorted entryLe) :
    (∀ t i, (get_next_event now st).1 = some (t, i) → now ≤ t) ∧
    (∀ x, (get_next_event now st).1 = some x →
      x ∈ (get_next_event now st).2.event_queue ∧
      ∀ y ∈ (get_next_event now st).2.event_queue, entryLe x y) ∧
    (∀ p ∈ st.event_queue, p ∉ (get_next_event now st).2.event_queue →
      ∀ nows : List Rat, some p ∉ run_queries (get_next_event now st).2 nows) := by
  have h1 : (get_next_event now st).1 = (drop_past now st.event_queue).head? := rfl
  have h2 : (get_next_event now st).2.event_queue = drop_past now st.event_queue := rfl
  refine ⟨?_, ?_, ?_⟩
  · intro t i h
    rw [h1] at h
    exact not_lt.mp (drop_past_head_not_past h)
  · intro x h
    rw [h1] at h
    rw [h2] at *
    exact ⟨List.mem_of_mem_head? (by simp [h]),
           sorted_head_min (drop_past_sorted hs) h⟩
  · intro p _ hnp nows
    exact run_queries_not_mem nows _ hnp

/-- Concrete instance of `c4_get_next_event`: `now` = 10:30 against events at
09:00, 10:00, 11:00. -/
theorem c4_get_next_event_witness :
    c4_ex_state.event_queue.Sorted entryLe ∧
    ((∀ t i, (get_next_event 37800 c4_ex_state).1 = some (t, i) → (37800 : Rat) ≤ t) ∧
     (∀ x, (get_next_event 37800 c4_ex_state).1 = some x →
       x ∈ (get_next_event 37800 c4_ex_state).2.event_queue ∧
       ∀ y ∈ (get_next_event 37800 c4_ex_state).2.event_queue, entryLe x y) ∧
     (∀ p ∈ c4_ex_state.event_queue,
       p ∉ (get_next_event 37800 c4_ex_state).2.event_queue →
       ∀ nows : List Rat, some p ∉ run_queries (get_next_event 37800 c4_ex_state).2 nows)) :=
  ⟨by decide, c4_get_next_event 37800 c4_ex_state (by decide)⟩

/-! ## Claim C3: back-to-back events do not conflict -/

/-- Inversion of a successful `schedule_event`: success forces a successful
persist, a false overlap check, a non-null interval, and fully determines the
new state. -/
theorem schedule_event_success {persistOk : Bool} {st st' : SysState} {ev : Event}
    (h : schedule_event persistOk st ev = (st', none)) :
    persistOk = true ∧
    ivt_overlaps st.intervals (start_ts ev) (end_ts ev) = false ∧
    start_ts ev < end_ts ev ∧
    st' = { st with
      intervals := st.intervals ++ [⟨start_ts ev, end_ts ev, ev.id⟩],
      event_queue := heappush st.event_queue (ev.date, ev.id),
      schedule := db_add_schedule st.schedule ev.id (start_ts ev) (end_ts ev) } := by
  unfold schedule_event at h
  split at h
  · split at h
    · split at h <;> simp [Prod.ext_iff] at h
    · simp [Prod.ext_iff] at h
  · next hov =>
    split at h
    · simp [Prod.ext_iff] at h
    · next ivs' hadd =>
      unfold ivt_add at hadd
      split at hadd
      · cases hadd
      · next hle =>
        obtain rfl : st.intervals ++ [⟨start_ts ev, end_ts ev, ev.id⟩] = ivs' := by
          simpa using hadd
        split at h
        · next hp =>
          simp only [Prod.mk.injEq] at h
          exact ⟨hp, by simpa using hov, not_le.mp hle, h.1.symm⟩
        · simp [Prod.ext_iff] at h

/-- C3.  If each of two events can be scheduled on its own in a state, and
one event's end instant equals the other's start instant, then scheduling
both — in either order — succeeds: the half-open intervals of back-to-back
events are not treated as overlapping. -/
theorem c3_back_to_back (st st₁ st₂ : SysState) (ev₁ ev₂ : Event)
    (h1 : schedule_event true st ev₁ = (st₁, none))
    (h2 : schedule_event true st ev₂ = (st₂, none))
    (hbtb : end_ts ev₁ = start_ts ev₂) :
    (schedule_event true st₁ ev₂).2 = none ∧ (schedule_event true st₂ ev₁).2 = none := by
  obtain ⟨-, hov1, hlt1, rfl⟩ := schedule_event_success h1
  obtain ⟨-, hov2, hlt2, rfl⟩ := schedule_event_success h2
  have hany1 : st.intervals.any
      (fun iv => iv_overlapsB iv (start_ts ev₁) (end_ts ev₁)) = false := by
    unfold ivt_overlaps at hov1
    rwa [if_neg (not_le.mpr hlt1)] at hov1
  have hany2 : st.intervals.any
      (fun iv => iv_overlapsB iv (start_ts ev₂) (end_ts ev₂)) = false := by
    unfold ivt_overlaps at hov2
    rwa [if_neg (not_le.mpr hlt2)] at hov2
  constructor
  · have hovnew : ivt_overlaps (st.intervals ++ [⟨start_ts ev₁, end_ts ev₁, ev₁.id⟩])
        (start_ts ev₂) (end_ts ev₂) = false := by
      unfold ivt_overlaps
      rw [if_neg (not_le.mpr hlt2), List.any_append, hany2]
      simp [iv_overlapsB, hbtb]
    simp [schedule_event, hovnew, ivt_add, not_le.mpr hlt2]
  · have hovnew : ivt_overlaps (st.intervals ++ [⟨start_ts ev₂, end_ts ev₂, ev₂.id⟩])
        (start_ts ev₁) (end_ts ev₁) = false := by
      unfold ivt_overlaps
      rw [if_neg (not_le.mpr hlt1), List.any_append, hany1]
      simp [iv_overlapsB, ← hbtb]
    simp [schedule_event, hovnew, ivt_add, not_le.mpr hlt1]

/-- Concrete instance of `c3_back_to_back`: `[0, 3600)` and `[3600, 7200)`
from the empty schedule. -/
theorem c3_back_to_back_witness :
    schedule_event true ⟨[], [], [], []⟩ ⟨"a", "A", 0, 1, 1, "basic", none, none⟩
      = (⟨[], [("a", 0, 3600)], [⟨0, 3600, "a"⟩], [(0, "a")]⟩, none) ∧
    schedule_event true ⟨[], [], [], []⟩ ⟨"b", "B", 3600, 1, 1, "basic", none, none⟩
      = (⟨[], [("b", 3600, 7200)], [⟨3600, 7200, "b"⟩], [(3600, "b")]⟩, none) ∧
    end_ts ⟨"a", "A", 0, 1, 1, "basic", none, none⟩
      = start_ts ⟨"b", "B", 3600, 1, 1, "basic", none, none⟩ ∧
    ((schedule_event true ⟨[], [("a", 0, 3600)], [⟨0, 3600, "a"⟩], [(0, "a")]⟩
        ⟨"b", "B", 3600, 1, 1, "basic", none, none⟩).2 = none ∧
     (schedule_event true ⟨[], [("b", 3600, 7200)], [⟨3600, 7200, "b"⟩], [(3600, "b")]⟩
        ⟨"a", "A", 0, 1, 1, "basic", none, none⟩).2 = none) := by
  have h1 : schedule_event true ⟨[], [], [], []⟩ ⟨"a", "A", 0, 1, 1, "basic", none, none⟩
      = (⟨[], [("a", 0, 3600)], [⟨0, 3600, "a"⟩], [(0, "a")]⟩, none) := by
    norm_num [schedule_event, ivt_overlaps, ivt_add, start_ts, end_ts, heappush,
      List.orderedInsert, db_add_schedule]
  have h2 : schedule_event true ⟨[], [], [], []⟩ ⟨"b", "B", 3600, 1, 1, "basic", none, none⟩
      = (⟨[], [("b", 3600, 7200)], [⟨3600, 7200, "b"⟩], [(3600, "b")]⟩, none) := by
    norm_num [schedule_event, ivt_overlaps, ivt_add, start_ts, end_ts, heappush,
      List.orderedInsert, db_add_schedule]
  have hbtb : end_ts ⟨"a", "A", 0, 1, 1, "basic", none, none⟩
      = start_ts ⟨"b", "B", 3600, 1, 1, "basic", none, none⟩ := by
    norm_num [end_ts, start_ts]
  exact ⟨h1, h2, hbtb, c3_back_to_back _ _ _ _ _ h1 h2 hbtb⟩

/-! ## Claim C8: behaviour on a failed persist (no rollback in the source) -/

/-- Counterexample to C8 as stated: a `schedule_event` call whose persist
step fails leaves the new entry in the interval index and lookahead queue
while the persisted schedule table is unchanged — the in-memory insert is
not rolled back and the two sides disagree. -/
theorem c8_counterexample :
    (schedule_event false ⟨[], [], [], []⟩ ⟨"c", "C", 0, 1, 1, "basic", none, none⟩).2
      = some SchedErr.persistFailure ∧
    (schedule_event false ⟨[], [], [], []⟩ ⟨"c", "C", 0, 1, 1, "basic", none, none⟩).1.intervals
      = [⟨0, 3600, "c"⟩] ∧
    (schedule_event false ⟨[], [], [], []⟩ ⟨"c", "C", 0, 1, 1, "basic", none, none⟩).1.event_queue
      = [(0, "c")] ∧
    (schedule_event false ⟨[], [], [], []⟩ ⟨"c", "C", 0, 1, 1, "basic", none, none⟩).1.schedule
      = [] := by
  norm_num [schedule_event, ivt_overlaps, ivt_add, start_ts, end_ts, heappush,
    List.orderedInsert]

/-- C8 as amended.  When the write of the schedule row fails after the
in-memory insert, the failure propagates to the caller and the in-memory
insert is **not** rolled back: the interval index and lookahead queue retain
the new entry while the persisted schedule table is unchanged, so the two
disagree. -/
theorem c8_amended_no_rollback (st : SysState) (ev : Event)
    (hov : ivt_overlaps st.intervals (start_ts ev) (end_ts ev) = false)
    (hlt : start_ts ev < end_ts ev) :
    schedule_event false st ev =
      ({ st with intervals := st.intervals ++ [⟨start_ts ev, end_ts ev, ev.id⟩],
                 event_queue := heappush st.event_queue (ev.date, ev.id) },
       some SchedErr.persistFailure) := by
  simp [schedule_event, hov, ivt_add, not_le.mpr hlt]

/-- Concrete instance of `c8_amended_no_rollback`. -/
theorem c8_amended_no_rollback_witness :
    ivt_overlaps ([] : List Iv)
      (start_ts ⟨"c", "C", 0, 1, 1, "basic", none, none⟩)
      (end_ts ⟨"c", "C", 0, 1, 1, "basic", none, none⟩) = false ∧
    start_ts ⟨"c", "C", 0, 1, 1, "basic", none, none⟩
      < end_ts ⟨"c", "C", 0, 1, 1, "basic", none, none⟩ ∧
    schedule_event false ⟨[], [], [], []⟩ ⟨"c", "C", 0, 1, 1, "basic", none, none⟩
      = (⟨[], [], [⟨0, 3600, "c"⟩], [(0, "c")]⟩, some SchedErr.persistFailure) := by
  have hov : ivt_overlaps ([] : List Iv)
      (start_ts ⟨"c", "C", 0, 1, 1, "basic", none, none⟩)
      (end_ts ⟨"c", "C", 0, 1, 1, "basic", none, none⟩) = false := by
    norm_num [ivt_overlaps, start_ts, end_ts]
  have hlt : start_ts ⟨"c", "C", 0, 1, 1, "basic", none, none⟩
      < end_ts ⟨"c", "C", 0, 1, 1, "basic", none, none⟩ := by
    norm_num [start_ts, end_ts]
  refine ⟨hov, hlt, ?_⟩
  have := c8_amended_no_rollback ⟨[], [], [], []⟩ ⟨"c", "C", 0, 1, 1, "basic", none, none⟩ hov hlt
  rw [this]
  norm_num [start_ts, end_ts, heappush, List.orderedInsert]

/-! ## Claim C5: restart round-trip -/

/-- `load_schedule` rebuilds, up to permutation, exactly the queue entries
`(start_ts, event_id)` of the persisted rows, and rebuilds it in heap
order. -/
theorem load_schedule_from_spec :
    ∀ (rows : List ScheduleRow) (ivs : List Iv) (q : List QEntry)
      (out : List Iv × List QEntry),
      load_schedule_from ivs q rows = some out →
      out.2.Perm (q ++ rows.map (fun r => (r.2.1, r.1))) ∧
      (q.Sorted entryLe → out.2.Sorted entryLe) := by
  intro rows
  induction rows with
  | nil =>
    intro ivs q out h
    simp only [load_schedule_from, Option.some.injEq] at h
    subst h
    exact ⟨by simp, fun hq => hq⟩
  | cons r rest ih =>
    intro ivs q out h
    obtain ⟨eid, s, e⟩ := r
    rw [load_schedule_from] at h
    cases hadd : ivt_add ivs s e eid with
    | none => rw [hadd] at h; cases h
    | some ivs' =>
      rw [hadd] at h
      obtain ⟨hperm, hsort⟩ := ih ivs' (heappush q (s, eid)) out h
      constructor
      · refine hperm.trans ?_
        refine (((List.perm_orderedInsert entryLe (s, eid) q).append_right _).trans ?_)
        exact List.perm_middle.symm
      · intro hq
        exact hsort (List.Sorted.orderedInsert _ _ hq)

/-- C5.  A scheduler whose queue is in heap order and carries exactly the
entries of its persisted schedule rows (as every scheduler that persisted
those rows does) and a fresh scheduler rebuilt from only those rows answer
every `get_next_event` query with the same entry. -/
theorem c5_restart_round_trip (evs : List EventRow) (st st₂ : SysState)
    (hsort : st.event_queue.Sorted entryLe)
    (hperm : st.event_queue.Perm (st.schedule.map (fun r => (r.2.1, r.1))))
    (hinit : scheduler_new evs st.schedule = some st₂) (now : Rat) :
    (get_next_event now st₂).1 = (get_next_event now st).1 := by
  unfold scheduler_new at hinit
  cases hload : load_schedule_from [] [] st.schedule with
  | none => rw [hload] at hinit; cases hinit
  | some out =>
    rw [hload] at hinit
    simp only [Option.map_some', Option.some.injEq] at hinit
    obtain ⟨hp, hs⟩ := load_schedule_from_spec _ _ _ _ hload
    have hq : out.2 = st.event_queue := by
      refine List.eq_of_perm_of_sorted ?_ (hs (by simp)) hsort
      exact (by simpa using hp : out.2.Perm _).trans hperm.symm
    subst hinit
    unfold get_next_event
    simp [hq]

/-- Concrete instance of `c5_restart_round_trip`: two persisted rows stored
in the opposite order from the live queue, queried at `now = 25`. -/
theorem c5_restart_round_trip_witness :
    ((⟨[], [("b", 30, 40), ("a", 10, 20)], [⟨10, 20, "a"⟩, ⟨30, 40, "b"⟩],
        [(10, "a"), (30, "b")]⟩ : SysState).event_queue.Sorted entryLe) ∧
    ((⟨[], [("b", 30, 40), ("a", 10, 20)], [⟨10, 20, "a"⟩, ⟨30, 40, "b"⟩],
        [(10, "a"), (30, "b")]⟩ : SysState).event_queue.Perm
      ((⟨[], [("b", 30, 40), ("a", 10, 20)], [⟨10, 20, "a"⟩, ⟨30, 40, "b"⟩],
        [(10, "a"), (30, "b")]⟩ : SysState).schedule.map (fun r => (r.2.1, r.1)))) ∧
    scheduler_new []
      (⟨[], [("b", 30, 40), ("a", 10, 20)], [⟨10, 20, "a"⟩, ⟨30, 40, "b"⟩],
        [(10, "a"), (30, "b")]⟩ : SysState).schedule
      = some ⟨[], [("b", 30, 40), ("a", 10, 20)], [⟨30, 40, "b"⟩, ⟨10, 20, "a"⟩],
        [(10, "a"), (30, "b")]⟩ ∧
    (get_next_event 25 ⟨[], [("b", 30, 40), ("a", 10, 20)],
        [⟨30, 40, "b"⟩, ⟨10, 20, "a"⟩], [(10, "a"), (30, "b")]⟩).1
      = (get_next_event 25 ⟨[], [("b", 30, 40), ("a", 10, 20)],
        [⟨10, 20, "a"⟩, ⟨30, 40, "b"⟩], [(10, "a"), (30, "b")]⟩).1 :=
  ⟨by decide, by decide, by decide,
   c5_restart_round_trip [] _ _ (by decide) (by decide) (by decide) 25⟩

/-! ## Claim C6: reschedule policy of `update_event` -/

/-- With a successful persist, `schedule_event` mutates nothing when it
fails: every error is raised before the in-memory insert. -/
theorem schedule_event_error_state {st st' : SysState} {ev : Event} {er : SchedErr}
    (h : schedule_event true st ev = (st', some er)) : st' = st := by
  unfold schedule_event at h
  split at h
  · split at h
    · split at h <;> (simp only [Prod.mk.injEq] at h; exact h.1.symm)
    · simp only [Prod.mk.injEq] at h; exact h.1.symm
  · split at h
    · simp only [Prod.mk.injEq] at h; exact h.1.symm
    · split at h
      · simp at h
      · next hp => exact absurd rfl hp

/-- Event A of the reschedule scenario: `[10:00, 12:00)` as seconds of the
day. -/
def c6_rowA : EventRow := ⟨"A", "Event A", 36000, 10, 2, "basic", none, none⟩

/-- Event B of the reschedule scenario: `[11:00, 13:00)`. -/
def c6_rowB : EventRow := ⟨"B", "Event B", 39600, 10, 2, "basic", none, none⟩

/-- Scenario start state: both event rows stored, nothing scheduled. -/
def c6_st0 : SysState := ⟨[c6_rowA, c6_rowB], [], [], []⟩

/-- Scenario state with A scheduled at `[10:00, 12:00)`. -/
def c6_stA : SysState := (schedule_event true c6_st0 (row_to_event c6_rowA)).1

/-- C6.  When `update_event` finds the event, the row update succeeds, and a
date or duration was (truthily) supplied, the result is exactly "remove the
old schedule entry first, then attempt a fresh `schedule_event` with the
re-read event"; when that fresh attempt fails, the error is surfaced to the
caller while the events table keeps the updated row and the event has no
schedule entry anywhere.  Moreover the concrete scenario holds: with A at
`[10:00, 12:00)`, B's `[11:00, 13:00)` is rejected naming A; after
rescheduling A to `[13:00, 15:00)` via `update_event`, B schedules cleanly. -/
theorem c6_reschedule_policy (st : SysState) (event_id : String)
    (t ty ins : Option String) (cap : Option Int) (d du : Option Rat)
    (ev ev' : Event) (events' : List EventRow)
    (hev : mgr_get_event st event_id = some ev)
    (hupd : db_update_event st.events event_id t d cap du ty ins = (events', true))
    (hre : (d.isSome || truthyR du) = true)
    (hev' : mgr_get_event (remove_event { st with events := events' } event_id) event_id
      = some ev') :
    (update_event st event_id t d cap du ty ins =
      match schedule_event true (remove_event { st with events := events' } event_id) ev' with
      | (s, none) => (s, Except.ok true)
      | (s, some er) => (s, Except.error er)) ∧
    (∀ er, (schedule_event true (remove_event { st with events := events' } event_id) ev').2
        = some er →
      update_event st event_id t d cap du ty ins
        = (remove_event { st with events := events' } event_id, Except.error er) ∧
      (∀ iv ∈ (update_event st event_id t d cap du ty ins).1.intervals,
        iv.data ≠ event_id) ∧
      (∀ p ∈ (update_event st event_id t d cap du ty ins).1.event_queue,
        p.2 ≠ event_id) ∧
      (∀ r ∈ (update_event st event_id t d cap du ty ins).1.schedule,
        r.1 ≠ event_id) ∧
      (update_event st event_id t d cap du ty ins).1.events = events') ∧
    ((schedule_event true c6_stA (row_to_event c6_rowB)).2
      = some (SchedErr.conflict "Event A" 36000) ∧
     (update_event c6_stA "A" none (some 46800) none none none none).2 = Except.ok true ∧
     (schedule_event true (update_event c6_stA "A" none (some 46800) none none none none).1
       (row_to_event c6_rowB)).2 = none) := by
  have hmain : update_event st event_id t d cap du ty ins =
      match schedule_event true (remove_event { st with events := events' } event_id) ev' with
      | (s, none) => (s, Except.ok true)
      | (s, some er) => (s, Except.error er) := by
    unfold update_event
    rw [hev, hupd]
    simp only [hre, if_true]
    rw [hev']
  refine ⟨hmain, ?_, ?_, ?_, ?_⟩
  · intro er her
    have hpair : schedule_event true (remove_event { st with events := events' } event_id) ev'
        = ((schedule_event true (remove_event { st with events := events' } event_id) ev').1,
           some er) := by
      rw [← her]
    have hst := schedule_event_error_state hpair
    have hres : update_event st event_id t d cap du ty ins
        = (remove_event { st with events := events' } event_id, Except.error er) := by
      rw [hmain, hpair, hst]
    refine ⟨hres, ?_, ?_, ?_, ?_⟩
    · intro iv hiv
      rw [hres] at hiv
      simp only [remove_event, List.mem_filter] at hiv
      simpa using hiv.2
    · intro p hp
      rw [hres] at hp
      simp only [remove_event, List.mem_filter] at hp
      simpa using hp.2
    · intro r hr
      rw [hres] at hr
      simp only [remove_event, db_remove_schedule, List.mem_filter] at hr
      simpa using hr.2
    · rw [hres]; rfl
  · norm_num [c6_stA, c6_st0, c6_rowA, c6_rowB, row_to_event, schedule_event,
      ivt_overlaps, ivt_add, iv_overlapsB, start_ts, end_ts, heappush,
      List.orderedInsert, db_add_schedule, db_get_event, List.find?]
  · norm_num [c6_stA, c6_st0, c6_rowA, c6_rowB, row_to_event, schedule_event,
      ivt_overlaps, ivt_add, iv_overlapsB, start_ts, end_ts, heappush,
      List.orderedInsert, db_add_schedule, db_get_event, update_event,
      mgr_get_event, db_update_event, truthyS, truthyR, truthyI, pickS, pickOS,
      pickD, pickR, pickI, remove_event, db_remove_schedule]
  · norm_num [c6_stA, c6_st0, c6_rowA, c6_rowB, row_to_event, schedule_event,
      ivt_overlaps, ivt_add, iv_overlapsB, start_ts, end_ts, heappush,
      List.orderedInsert, db_add_schedule, db_get_event, update_event,
      mgr_get_event, db_update_event, truthyS, truthyR, truthyI, pickS, pickOS,
      pickD, pickR, pickI, remove_event, db_remove_schedule]

/-- Concrete instance of `c6_reschedule_policy`: rescheduling A from
`[10:00, 12:00)` to `[13:00, 15:00)` by updating its date to 46800. -/
theorem c6_reschedule_policy_witness :
    (mgr_get_event c6_stA "A" = some (row_to_event c6_rowA) ∧
     db_update_event c6_stA.events "A" none (some 46800) none none none none
       = ([⟨"A", "Event A", 46800, 10, 2, "basic", none, none⟩, c6_rowB], true) ∧
     (((some (46800 : Rat)).isSome || truthyR none) = true) ∧
     mgr_get_event (remove_event { c6_stA with
         events := [⟨"A", "Event A", 46800, 10, 2, "basic", none, none⟩, c6_rowB] } "A") "A"
       = some ⟨"A", "Event A", 46800, 10, 2, "basic", none, none⟩) ∧
    (update_event c6_stA "A" none (some 46800) none none none none =
      match schedule_event true (remove_event { c6_stA with
          events := [⟨"A", "Event A", 46800, 10, 2, "basic", none, none⟩, c6_rowB] } "A")
          (⟨"A", "Event A", 46800, 10, 2, "basic", none, none⟩ : Event) with
      | (s, none) => (s, Except.ok true)
      | (s, some er) => (s, Except.error er)) := by
  have h1 : mgr_get_event c6_stA "A" = some (row_to_event c6_rowA) := by
    norm_num [mgr_get_event, db_get_event, c6_stA, c6_st0, c6_rowA, c6_rowB,
      row_to_event, schedule_event, ivt_overlaps, ivt_add, start_ts, end_ts,
      heappush, List.orderedInsert, db_add_schedule]
  have h2 : db_update_event c6_stA.events "A" none (some 46800) none none none none
      = ([⟨"A", "Event A", 46800, 10, 2, "basic", none, none⟩, c6_rowB], true) := by
    norm_num [db_update_event, truthyS, truthyR, truthyI, pickS, pickOS, pickD,
      pickR, pickI, c6_stA, c6_st0, c6_rowA, c6_rowB, row_to_event, schedule_event,
      ivt_overlaps, ivt_add, start_ts, end_ts, heappush, List.orderedInsert,
      db_add_schedule]
    decide
  have h3 : (((some (46800 : Rat)).isSome || truthyR none) = true) := rfl
  have h4 : mgr_get_event (remove_event { c6_stA with
      events := [⟨"A", "Event A", 46800, 10, 2, "basic", none, none⟩, c6_rowB] } "A") "A"
      = some ⟨"A", "Event A", 46800, 10, 2, "basic", none, none⟩ := by
    norm_num [mgr_get_event, db_get_event, remove_event, db_remove_schedule,
      row_to_event, c6_rowB]
  exact ⟨⟨h1, h2, h3, h4⟩,
    (c6_reschedule_policy c6_stA "A" none none none none (some 46800) none _ _ _
      h1 h2 h3 h4).1⟩
